import Mathlib

/-!
Verification of the `tunnelclient-rs` HTTP API client (`src/http_api.rs`).

The Rust code is shallowly embedded over byte strings (`List Nat`, each
element a byte value).  Rust `String` values are UTF-8 byte sequences, so
`format!` concatenations become list appends and string literals become the
`bytes` of the literal.  The external collaborators (the `reqwest` HTTP
transport and the `acme_client` certificate-authority library) appear as
explicit oracle parameters; every outbound interaction is recorded so that
"no request is sent" facts are expressible.
-/

/-- Byte strings: every element is a byte value (below 256 for well-formed
inputs). -/
abbrev ByteStr := List Nat

/-- UTF-8 encoding of a single code point, as in Rust's `str::as_bytes`. -/
def utf8Bytes (c : Nat) : List Nat :=
  if c < 0x80 then [c]
  else if c < 0x800 then [0xC0 + c / 64, 0x80 + c % 64]
  else if c < 0x10000 then [0xE0 + c / 4096, 0x80 + (c / 64) % 64, 0x80 + c % 64]
  else [0xF0 + c / 262144, 0x80 + (c / 4096) % 64, 0x80 + (c / 64) % 64, 0x80 + c % 64]

/-- The UTF-8 bytes of a Lean string literal, mirroring Rust `s.as_bytes()`. -/
def bytes (s : String) : ByteStr :=
  s.data.flatMap (fun c => utf8Bytes c.toNat)

/-- ASCII code of the uppercase hexadecimal digit for `n < 16`, as produced by
the `url` crate's percent encoder. -/
def hexDigit (n : Nat) : Nat :=
  if n < 10 then 48 + n else 55 + n

/-- Percent-escape of one byte: `%` followed by two uppercase hex digits. -/
def encodeByte (b : Nat) : List Nat :=
  [37, hexDigit (b / 16), hexDigit (b % 16)]

/-- The `url` crate's `SIMPLE_ENCODE_SET`: C0 controls and bytes above `~`. -/
def simpleEncodeSet (b : Nat) : Bool :=
  b < 0x20 || b > 0x7E

/-- The `url` crate's `QUERY_ENCODE_SET`: the simple set plus space, quote,
hash, less-than and greater-than.  Note that ampersand, equals, question mark
and percent are NOT in this set. -/
def queryEncodeSet (b : Nat) : Bool :=
  simpleEncodeSet b || b == 32 || b == 34 || b == 35 || b == 60 || b == 62

/-- `fn url_param(param: &str) -> String`: percent-encode the bytes of the
parameter with `QUERY_ENCODE_SET` (src/http_api.rs lines 28-30). -/
def url_param (param : ByteStr) : ByteStr :=
  param.flatMap (fun b => if queryEncodeSet b then encodeByte b else [b])

/-- `pub struct TunnelClient { tunnel_url, token }` (src/http_api.rs 13-16). -/
structure TunnelClient where
  tunnel_url : ByteStr
  token : Option ByteStr
deriving DecidableEq

/-- `pub enum TunnelClientError` (src/http_api.rs 18-26).  `Acme` carries the
collaborator's error, modelled by its description bytes; `Other` carries the
formatted `reqwest` error, likewise by its description bytes. -/
inductive TunnelClientError where
  | NoName
  | NoToken
  | NoChallenge
  | BadRequest
  | Other (s : ByteStr)
  | Acme (e : ByteStr)
deriving DecidableEq

/-- The loop body of `get_full_url` (src/http_api.rs 119-124): starting from
separator `sep`, append `"{sep}{name}={url_param value}"` for each parameter
whose value is present, switching the separator to `"&"` after the first
append.  Returns the appended text together with the separator value the loop
leaves behind (used afterwards for the token). -/
def paramsText (sep : ByteStr) : List (ByteStr × Option ByteStr) → ByteStr × ByteStr
  | [] => ([], sep)
  | p :: rest =>
    match p.2 with
    | some pvalue =>
      let t := paramsText (bytes "&") rest
      (sep ++ p.1 ++ bytes "=" ++ url_param pvalue ++ t.1, t.2)
    | none => paramsText sep rest

/-- `fn get_full_url(&self, path, params, include_token) -> String`
(src/http_api.rs 112-133): `"{tunnel_url}/{path}"`, then the present
parameters with `?`/`&` separators, then — when `include_token` holds and a
token is held — `"{sep}token={url_param token}"`. -/
def get_full_url (self : TunnelClient) (path : ByteStr)
    (params : List (ByteStr × Option ByteStr)) (include_token : Bool) : ByteStr :=
  let t := paramsText (bytes "?") params
  let url := self.tunnel_url ++ bytes "/" ++ path ++ t.1
  if include_token then
    match self.token with
    | some token => url ++ t.2 ++ bytes "token=" ++ url_param token
    | none => url
  else
    url

example : get_full_url ⟨bytes "http://b", none⟩ (bytes "p") [] false = bytes "http://b/p" := by decide

example :
    get_full_url ⟨bytes "http://b", some (bytes "T")⟩ (bytes "p")
      [(bytes "a", some (bytes "x")), (bytes "b", none), (bytes "c", some (bytes "y"))] true
    = bytes "http://b/p?a=x&c=y&token=T" := by decide

example : url_param (bytes "a b") = bytes "a%20b" := by decide
example : url_param (bytes "a&b=c?d%e") = bytes "a&b=c?d%e" := by decide

/-- Outcome of `reqwest`'s `client.get(url).send()`: either a transport error
(carrying its displayed description, as `format!("{}", err)` would render it)
or a response with a status code and a body. -/
inductive TransportResult where
  | failure (err : ByteStr)
  | response (status : Nat) (body : ByteStr)
deriving DecidableEq

/-- The HTTP transport collaborator: what `send()` returns for each URL. -/
abbrev Transport := ByteStr → TransportResult

/-- `struct NameAndToken` from the `types` crate: the decoded body of a
successful `subscribe` call. -/
structure NameAndToken where
  name : ByteStr
  token : ByteStr
deriving DecidableEq

/-- `struct ServerInfo` from the `types` crate, opaque to this client. -/
structure ServerInfo where
  raw : ByteStr
deriving DecidableEq

/-- `struct Discovered` from the `types` crate, opaque to this client. -/
structure Discovered where
  raw : ByteStr
deriving DecidableEq

/-- The body of the `api_endpoint!` macro (src/http_api.rs 45-74): check the
token when gated, build the full URL, perform one GET, classify the outcome
and decode the JSON body.  `decode` is the collaborator for
`response.json::<T>()`, failing with the displayed `reqwest` error.  The
second component records every outbound request URL (empty when no request is
sent). -/
def api_endpoint {ρ : Type} (self : TunnelClient) (base : ByteStr) (with_token : Bool)
    (params : List (ByteStr × Option ByteStr)) (transport : Transport)
    (decode : ByteStr → Except ByteStr ρ) :
    Except TunnelClientError ρ × List ByteStr :=
  if with_token && self.token.isNone then
    (.error .NoToken, [])
  else
    let url := get_full_url self base params with_token
    match transport url with
    | .failure err => (.error (.Other err), [url])
    | .response status body =>
      if status == 200 then
        match decode body with
        | .ok res => (.ok res, [url])
        | .error err => (.error (.Other err), [url])
      else
        (.error .BadRequest, [url])

/-- The body of the `empty_api_endpoint!` macro (src/http_api.rs 77-102):
like `api_endpoint` but for endpoints whose success carries no body. -/
def empty_api_endpoint (self : TunnelClient) (base : ByteStr) (with_token : Bool)
    (params : List (ByteStr × Option ByteStr)) (transport : Transport) :
    Except TunnelClientError Unit × List ByteStr :=
  if with_token && self.token.isNone then
    (.error .NoToken, [])
  else
    let url := get_full_url self base params with_token
    match transport url with
    | .failure err => (.error (.Other err), [url])
    | .response status _ =>
      if status == 200 then
        (.ok (), [url])
      else
        (.error .BadRequest, [url])

/-- `api_endpoint!(call_subscribe, "subscribe", false, NameAndToken)`. -/
def call_subscribe (self : TunnelClient) (params : List (ByteStr × Option ByteStr))
    (transport : Transport) (decode : ByteStr → Except ByteStr NameAndToken) :
    Except TunnelClientError NameAndToken × List ByteStr :=
  api_endpoint self (bytes "subscribe") false params transport decode

/-- `pub fn subscribe(&self, name, description) -> Option<Self>`
(src/http_api.rs 136-146): on success a NEW client with the same
`tunnel_url` and the freshly issued token; on failure `None`. -/
def subscribe (self : TunnelClient) (name : ByteStr) (description : Option ByteStr)
    (transport : Transport) (decode : ByteStr → Except ByteStr NameAndToken) :
    Option TunnelClient × List ByteStr :=
  match call_subscribe self [(bytes "name", some name), (bytes "desc", description)]
      transport decode with
  | (.ok n_t, reqs) => (some ⟨self.tunnel_url, some n_t.token⟩, reqs)
  | (.error _, reqs) => (none, reqs)

/-- `empty_api_endpoint!(call_unsubscribe, "unsubscribe", true)` and
`pub fn unsubscribe(&self)` (src/http_api.rs 148-151). -/
def unsubscribe (self : TunnelClient) (transport : Transport) :
    Except TunnelClientError Unit × List ByteStr :=
  empty_api_endpoint self (bytes "unsubscribe") true [] transport

/-- `empty_api_endpoint!(call_register, "register", true)` and
`pub fn register(&self, local_ip)` (src/http_api.rs 153-156). -/
def register (self : TunnelClient) (local_ip : ByteStr) (transport : Transport) :
    Except TunnelClientError Unit × List ByteStr :=
  empty_api_endpoint self (bytes "register") true [(bytes "local_ip", some local_ip)] transport

/-- `empty_api_endpoint!(call_dnsconfig, "dnsconfig", true)` and
`pub fn dnsconfig(&self, challenge)` (src/http_api.rs 158-161). -/
def dnsconfig (self : TunnelClient) (challenge : ByteStr) (transport : Transport) :
    Except TunnelClientError Unit × List ByteStr :=
  empty_api_endpoint self (bytes "dnsconfig") true [(bytes "challenge", some challenge)] transport

/-- `api_endpoint!(call_info, "info", true, ServerInfo)` and
`pub fn info(&self)` (src/http_api.rs 163-166). -/
def info (self : TunnelClient) (transport : Transport)
    (decode : ByteStr → Except ByteStr ServerInfo) :
    Except TunnelClientError ServerInfo × List ByteStr :=
  api_endpoint self (bytes "info") true [] transport decode

/-- `api_endpoint!(call_ping, "ping", true, Discovered)` and
`pub fn ping(&self)` (src/http_api.rs 168-171). -/
def ping (self : TunnelClient) (transport : Transport)
    (decode : ByteStr → Except ByteStr Discovered) :
    Except TunnelClientError Discovered × List ByteStr :=
  api_endpoint self (bytes "ping") true [] transport decode

/-- `empty_api_endpoint!(call_adddiscovery, "adddiscovery", true)` and
`pub fn adddiscovery(&self, disco)` (src/http_api.rs 173-176). -/
def adddiscovery (self : TunnelClient) (disco : ByteStr) (transport : Transport) :
    Except TunnelClientError Unit × List ByteStr :=
  empty_api_endpoint self (bytes "adddiscovery") true [(bytes "disco", some disco)] transport

/-- `empty_api_endpoint!(call_revokediscovery, "adddiscovery", true)` and
`pub fn revokediscovery(&self, disco)` (src/http_api.rs 178-181).  Note the
base path is `"adddiscovery"`, exactly as in the source. -/
def revokediscovery (self : TunnelClient) (disco : ByteStr) (transport : Transport) :
    Except TunnelClientError Unit × List ByteStr :=
  empty_api_endpoint self (bytes "adddiscovery") true [(bytes "disco", some disco)] transport

/-- `empty_api_endpoint!(call_setemail, "setemail", true)` and
`pub fn setemail(&self, email)` (src/http_api.rs 183-186). -/
def setemail (self : TunnelClient) (email : ByteStr) (transport : Transport) :
    Except TunnelClientError Unit × List ByteStr :=
  empty_api_endpoint self (bytes "setemail") true [(bytes "email", some email)] transport

/-- `empty_api_endpoint!(call_revokeemail, "revokeemail", true)` and
`pub fn revokeemail(&self, email)` (src/http_api.rs 188-191). -/
def revokeemail (self : TunnelClient) (email : ByteStr) (transport : Transport) :
    Except TunnelClientError Unit × List ByteStr :=
  empty_api_endpoint self (bytes "revokeemail") true [(bytes "email", some email)] transport

/-- A DNS-01 challenge handle from the ACME collaborator: the outcome of its
`signature()` call (the DNS TXT value to publish) and of its `validate()`
call. -/
structure DnsChallenge where
  signatureResult : Except ByteStr ByteStr
  validateResult : Except ByteStr Unit

/-- An authorization object from the ACME collaborator:
`get_dns_challenge()` returns an optional DNS-01 challenge. -/
structure Authorization where
  dns_challenge : Option DnsChallenge

/-- The ACME certificate-authority collaborator, as the outcomes of the calls
`lets_encrypt` makes on it: `Directory::lets_encrypt()`,
`account_registration().register()`, per-domain `account.authorization(d)`,
`sign_certificate()`, and the two artifact saves.  Errors carry the
collaborator's error description. -/
structure AcmeStub where
  directoryResult : Except ByteStr Unit
  registerResult : Except ByteStr Unit
  authorization : ByteStr → Except ByteStr Authorization
  signResult : Except ByteStr Unit
  saveCertResult : Except ByteStr Unit
  saveKeyResult : Except ByteStr Unit

/-- Observable steps of an issuance run, in the order they occur.  `publish`
records an outbound `dnsconfig` request URL; `saveCert` and `saveKey` record
the file path an artifact save is attempted at. -/
inductive Event where
  | getDirectory
  | registerAccount
  | authorize (d : ByteStr)
  | getChallenge (d : ByteStr)
  | getSignature (d : ByteStr)
  | publish (url : ByteStr)
  | validate (d : ByteStr)
  | signCert
  | saveCert (file : ByteStr)
  | saveKey (file : ByteStr)
deriving DecidableEq

/-- `remote_domain = format!("{}.box.{}", name, domain)`
(src/http_api.rs 208). -/
def remote_domain (name domain : ByteStr) : ByteStr :=
  name ++ bytes ".box." ++ domain

/-- `local_domain = format!("local.{}.box.{}", name, domain)`
(src/http_api.rs 209). -/
def local_domain (name domain : ByteStr) : ByteStr :=
  bytes "local." ++ name ++ bytes ".box." ++ domain

/-- `let domains = [remote_domain, local_domain]` (src/http_api.rs 211):
the Domain Pair, in the order the loop processes it. -/
def issuance_domains (name domain : ByteStr) : List ByteStr :=
  [remote_domain name domain, local_domain name domain]

/-- `Path::join`, modelled as appending a `/` and the file name. -/
def pjoin (p file : ByteStr) : ByteStr :=
  p ++ bytes "/" ++ file

/-- One iteration of the per-domain loop of `lets_encrypt`
(src/http_api.rs 213-225): authorization, DNS-challenge extraction (failing
with `NoChallenge` when none is offered), signature computation, publication
through the token-gated `dnsconfig` operation, then validation.  Returns the
outcome and the events of this iteration. -/
def processDomain (self : TunnelClient) (st : AcmeStub) (transport : Transport)
    (d : ByteStr) : Except TunnelClientError Unit × List Event :=
  match st.authorization d with
  | .error e => (.error (.Acme e), [.authorize d])
  | .ok authorization =>
    match authorization.dns_challenge with
    | none => (.error .NoChallenge, [.authorize d, .getChallenge d])
    | some dns_challenge =>
      match dns_challenge.signatureResult with
      | .error e => (.error (.Acme e), [.authorize d, .getChallenge d, .getSignature d])
      | .ok signature =>
        match dnsconfig self signature transport with
        | (.error e, reqs) =>
          (.error e,
            [.authorize d, .getChallenge d, .getSignature d] ++ reqs.map .publish)
        | (.ok _, reqs) =>
          match dns_challenge.validateResult with
          | .error e =>
            (.error (.Acme e),
              [.authorize d, .getChallenge d, .getSignature d]
                ++ reqs.map .publish ++ [.validate d])
          | .ok _ =>
            (.ok (),
              [.authorize d, .getChallenge d, .getSignature d]
                ++ reqs.map .publish ++ [.validate d])

/-- `for domain in &domains { ... }` with `?`-propagation: process the
domains in order, stopping at the first failure. -/
def runDomains (self : TunnelClient) (st : AcmeStub) (transport : Transport) :
    List ByteStr → Except TunnelClientError Unit × List Event
  | [] => (.ok (), [])
  | d :: rest =>
    match processDomain self st transport d with
    | (.error e, evs) => (.error e, evs)
    | (.ok _, evs) =>
      let r := runDomains self st transport rest
      (r.1, evs ++ r.2)

/-- `pub fn lets_encrypt(&self, domain, name, path)` (src/http_api.rs
194-233): token precondition, directory and account registration, the
per-domain validation loop over the Domain Pair, certificate signing, and the
two artifact saves under `path`.  Returns the outcome together with the full
event trace. -/
def lets_encrypt (self : TunnelClient) (domain name : ByteStr) (path : ByteStr)
    (st : AcmeStub) (transport : Transport) :
    Except TunnelClientError Unit × List Event :=
  if self.token.isNone then
    (.error .NoToken, [])
  else
    match st.directoryResult with
    | .error e => (.error (.Acme e), [.getDirectory])
    | .ok _ =>
      match st.registerResult with
      | .error e => (.error (.Acme e), [.getDirectory, .registerAccount])
      | .ok _ =>
        match runDomains self st transport (issuance_domains name domain) with
        | (.error e, evs) => (.error e, .getDirectory :: .registerAccount :: evs)
        | (.ok _, evs) =>
          let pre : List Event := .getDirectory :: .registerAccount :: evs
          match st.signResult with
          | .error e => (.error (.Acme e), pre ++ [.signCert])
          | .ok _ =>
            match st.saveCertResult with
            | .error e =>
              (.error (.Acme e),
                pre ++ [.signCert, .saveCert (pjoin path (bytes "certificate.pem"))])
            | .ok _ =>
              match st.saveKeyResult with
              | .error e =>
                (.error (.Acme e),
                  pre ++ [.signCert, .saveCert (pjoin path (bytes "certificate.pem")),
                          .saveKey (pjoin path (bytes "privatekey.pem"))])
              | .ok _ =>
                (.ok (),
                  pre ++ [.signCert, .saveCert (pjoin path (bytes "certificate.pem")),
                          .saveKey (pjoin path (bytes "privatekey.pem"))])

/-- Whether an event is a certificate-save attempt. -/
def isSaveCert : Event → Bool
  | .saveCert _ => true
  | _ => false

/-- Whether an event is a private-key-save attempt. -/
def isSaveKey : Event → Bool
  | .saveKey _ => true
  | _ => false

/-- Whether an event belongs to the per-domain processing of domain `d`:
either it names `d` itself or it is an outbound publication. -/
def scopedEvent (d : ByteStr) : Event → Bool
  | .authorize d2 => d2 == d
  | .getChallenge d2 => d2 == d
  | .getSignature d2 => d2 == d
  | .validate d2 => d2 == d
  | .publish _ => true
  | _ => false

/-- Whether an `Except` outcome is a success. -/
def exceptOk {ε α : Type} : Except ε α → Bool
  | .ok _ => true
  | .error _ => false

/-- `certificate.pem` exists after a run: the save was attempted and the
collaborator's save call succeeded (a failing save writes nothing). -/
def certFileWritten (st : AcmeStub) (evs : List Event) : Bool :=
  evs.any isSaveCert && exceptOk st.saveCertResult

/-- `privatekey.pem` exists after a run: the save was attempted and the
collaborator's save call succeeded. -/
def keyFileWritten (st : AcmeStub) (evs : List Event) : Bool :=
  evs.any isSaveKey && exceptOk st.saveKeyResult

/-- Value of an ASCII hexadecimal digit, `none` for any other byte. -/
def hexVal (b : Nat) : Option Nat :=
  if 48 ≤ b ∧ b ≤ 57 then some (b - 48)
  else if 65 ≤ b ∧ b ≤ 70 then some (b - 55)
  else if 97 ≤ b ∧ b ≤ 102 then some (b - 87)
  else none

/-- Modelled from the spec: the spec's round-trip property speaks of the
encoded value "when decoded", and no decoder exists in the source, so this is
standard percent-decoding — a `%` followed by two hexadecimal digits decodes
to the byte they denote, every other byte passes through unchanged. -/
def percentDecode : ByteStr → ByteStr
  | [] => []
  | 37 :: h :: l :: rest =>
    match hexVal h, hexVal l with
    | some hv, some lv => (hv * 16 + lv) :: percentDecode rest
    | _, _ => 37 :: percentDecode (h :: l :: rest)
  | b :: rest => b :: percentDecode rest

example : percentDecode (bytes "a%20b") = bytes "a b" := by decide
example : percentDecode (url_param (bytes "%41")) = bytes "A" := by decide

/-- The parameters that actually get appended: those whose value is present,
paired with their value. -/
def presentParams (params : List (ByteStr × Option ByteStr)) : List (ByteStr × ByteStr) :=
  params.filterMap (fun p => p.2.map (fun v => (p.1, v)))

/-- One rendered query item: the name verbatim, `=`, the encoded value. -/
def renderParam (p : ByteStr × ByteStr) : ByteStr :=
  p.1 ++ bytes "=" ++ url_param p.2

/-- The URL shape the spec describes: `base/path`, then — when any item is
appended — exactly one `?` before the first rendered item and a `&` before
each subsequent one; the token, when gating is requested and one is held,
is the last item, named `token`. -/
def specQueryUrl (self : TunnelClient) (path : ByteStr)
    (params : List (ByteStr × Option ByteStr)) (include_token : Bool) : ByteStr :=
  let items :=
    presentParams params ++
      (if include_token then
        match self.token with
        | some token => [(bytes "token", token)]
        | none => []
      else [])
  self.tunnel_url ++ bytes "/" ++ path ++
    (match items.map renderParam with
     | [] => []
     | r :: rs => bytes "?" ++ r ++ (rs.map (fun x => bytes "&" ++ x)).flatten)

example :
    specQueryUrl ⟨bytes "http://b", some (bytes "T")⟩ (bytes "p")
      [(bytes "a", some (bytes "x")), (bytes "b", none), (bytes "c", some (bytes "y"))] true
    = bytes "http://b/p?a=x&c=y&token=T" := by decide

/-- A concrete client holding a token, for concrete runs. -/
def tokClient : TunnelClient :=
  ⟨bytes "http://svc", some (bytes "tok")⟩

/-- A concrete client holding no token, for concrete runs. -/
def noTokenClient : TunnelClient :=
  ⟨bytes "http://svc", none⟩

/-- A transport whose every request succeeds with an empty 200 response. -/
def okTransport : Transport :=
  fun _ => .response 200 []

/-- A decoder for `ServerInfo` that always fails with a fixed decode error. -/
def failDecodeInfo : ByteStr → Except ByteStr ServerInfo :=
  fun _ => .error (bytes "boom")

/-- A decoder for `ServerInfo` that always succeeds. -/
def okDecodeInfo : ByteStr → Except ByteStr ServerInfo :=
  fun b => .ok ⟨b⟩

/-- A decoder for `Discovered` that always succeeds. -/
def okDecodeDisco : ByteStr → Except ByteStr Discovered :=
  fun b => .ok ⟨b⟩

/-- A decoder for `NameAndToken` that always succeeds with a fixed token. -/
def okDecodeNT : ByteStr → Except ByteStr NameAndToken :=
  fun _ => .ok ⟨bytes "foo", bytes "issued"⟩

/-- An ACME collaborator for which every call succeeds. -/
def allOkStub : AcmeStub :=
  ⟨.ok (), .ok (), fun _ => .ok ⟨some ⟨.ok (bytes "sig"), .ok ()⟩⟩, .ok (), .ok (), .ok ()⟩

/-- An ACME collaborator whose per-domain authorization call fails. -/
def authFailStub : AcmeStub :=
  ⟨.ok (), .ok (), fun _ => .error (bytes "authfail"), .ok (), .ok (), .ok ()⟩

/-- An ACME collaborator for which everything succeeds except the
private-key save. -/
def keySaveFailStub : AcmeStub :=
  ⟨.ok (), .ok (), fun _ => .ok ⟨some ⟨.ok (bytes "sig"), .ok ()⟩⟩, .ok (), .ok (),
    .error (bytes "diskfull")⟩

/-- Helper: the literal `"token="` splits as `"token"` then `"="`. -/
theorem bytes_token_split : bytes "token=" = bytes "token" ++ bytes "=" := by decide

/-- Claim C9: `revokediscovery` and `adddiscovery` build identical requests —
both token-gated, both sending the single `disco` parameter, both targeting
the `adddiscovery` path — so they are extensionally equal. -/
theorem C9_revokediscovery_equals_adddiscovery (self : TunnelClient) (disco : ByteStr)
    (transport : Transport) :
    revokediscovery self disco transport = adddiscovery self disco transport := rfl

/-- Claim C8: `lets_encrypt` derives exactly the Domain Pair
`"{name}.box.{domain}"` and `"local.{name}.box.{domain}"`, processed in
remote-then-local order; for `name="foo"`, `domain="example.com"` the pair is
`foo.box.example.com` and `local.foo.box.example.com`. -/
theorem C8_domain_pair_derivation :
    (∀ name domain : ByteStr,
        remote_domain name domain = name ++ bytes ".box." ++ domain
        ∧ local_domain name domain = bytes "local." ++ remote_domain name domain
        ∧ issuance_domains name domain = [remote_domain name domain, local_domain name domain])
    ∧ issuance_domains (bytes "foo") (bytes "example.com")
        = [bytes "foo.box.example.com", bytes "local.foo.box.example.com"] := by
  constructor
  · intro name domain
    refine ⟨rfl, ?_, rfl⟩
    simp [local_domain, remote_domain, List.append_assoc]
  · decide

/-- Claim C10: only parameter values and the token are percent-encoded; the
base URL, the endpoint path and parameter names are concatenated verbatim,
so a name containing reserved query characters appears unescaped. -/
theorem C10_names_and_base_not_encoded (base path n v : ByteStr) (tok : Option ByteStr) :
    get_full_url ⟨base, tok⟩ path [(n, some v)] false
      = base ++ bytes "/" ++ path ++ bytes "?" ++ n ++ bytes "=" ++ url_param v
    ∧ (∀ token : ByteStr,
        get_full_url ⟨base, some token⟩ path [(n, some v)] true
          = base ++ bytes "/" ++ path ++ bytes "?" ++ n ++ bytes "=" ++ url_param v
              ++ bytes "&" ++ bytes "token" ++ bytes "=" ++ url_param token)
    ∧ get_full_url ⟨bytes "http://b", none⟩ (bytes "p")
        [(bytes "a&b", some (bytes "x y"))] false
      = bytes "http://b/p?a&b=x%20y" := by
  refine ⟨?_, ?_, by decide⟩
  · simp [get_full_url, paramsText, List.append_assoc]
  · intro token
    simp [get_full_url, paramsText, bytes_token_split, List.append_assoc]

/-- Claim C5: `subscribe` never mutates the caller's identity (the embedding
takes it immutably and builds a fresh value); on success it returns a new
identity with the caller's own `tunnel_url` and exactly the freshly issued
token; on failure the caller only sees `none`, with no error detail. -/
theorem C5_subscribe_contract (self : TunnelClient) (name : ByteStr)
    (description : Option ByteStr) (transport : Transport)
    (decode : ByteStr → Except ByteStr NameAndToken) :
    (subscribe self name description transport decode).1 =
      (match (call_subscribe self [(bytes "name", some name), (bytes "desc", description)]
          transport decode).1 with
       | .ok n_t => some ⟨self.tunnel_url, some n_t.token⟩
       | .error _ => none) := by
  unfold subscribe
  rcases h : call_subscribe self [(bytes "name", some name), (bytes "desc", description)]
      transport decode with ⟨r, reqs⟩
  cases r <;> simp

/-- Helper: the separator loop renders exactly the present parameters, with
the incoming separator before the first rendered item and `&` before each
subsequent one, and leaves the separator at `&` as soon as anything was
appended. -/
theorem presentParams_cons_some (n v : ByteStr) (rest : List (ByteStr × Option ByteStr)) :
    presentParams ((n, some v) :: rest) = (n, v) :: presentParams rest := by
  simp [presentParams]

theorem presentParams_cons_none (n : ByteStr) (rest : List (ByteStr × Option ByteStr)) :
    presentParams ((n, none) :: rest) = presentParams rest := by
  simp [presentParams]

theorem paramsText_eq (sep : ByteStr) (params : List (ByteStr × Option ByteStr)) :
    paramsText sep params =
      (match presentParams params with
       | [] => (([] : ByteStr), sep)
       | r :: rs =>
          (sep ++ renderParam r ++ (rs.map (fun x => bytes "&" ++ renderParam x)).flatten,
           bytes "&")) := by
  induction params generalizing sep with
  | nil => simp [paramsText, presentParams]
  | cons p rest ih =>
    rcases p with ⟨pname, pval⟩
    cases pval with
    | none =>
      rw [presentParams_cons_none]
      simpa [paramsText] using ih sep
    | some v =>
      rw [presentParams_cons_some]
      simp only [paramsText]
      rw [ih (bytes "&")]
      cases hpp : presentParams rest with
      | nil => simp [renderParam, List.append_assoc]
      | cons r rs => simp [renderParam, List.append_assoc]

/-- Claim C6: the built URL is `base/path` with no query string when nothing
is appended; absent-valued parameters are omitted; the first appended item is
prefixed with exactly one `?` and each later one with `&`; and the token,
when gating is requested and one is held, comes last under the same
separator logic — `get_full_url` coincides with the spec-shaped rendering. -/
theorem C6_separator_correctness (self : TunnelClient) (path : ByteStr)
    (params : List (ByteStr × Option ByteStr)) (include_token : Bool) :
    get_full_url self path params include_token = specQueryUrl self path params include_token := by
  unfold get_full_url specQueryUrl
  rw [paramsText_eq]
  cases include_token with
  | false =>
    cases hpp : presentParams params with
    | nil => simp
    | cons r rs => simp [List.map_map, Function.comp_def, List.append_assoc]
  | true =>
    cases htok : self.token with
    | none =>
      cases hpp : presentParams params with
      | nil => simp
      | cons r rs => simp [List.map_map, Function.comp_def, List.append_assoc]
    | some token =>
      cases hpp : presentParams params with
      | nil => simp [renderParam, bytes_token_split, List.append_assoc]
      | cons r rs =>
        simp [renderParam, bytes_token_split, List.map_map, Function.comp_def,
          List.flatten_append, List.append_assoc]

/-- Claim C2: every token-gated operation and the issuance flow, invoked on a
client holding no token, fails with `NoToken` and performs no outbound
request (empty request list) and no CA interaction (empty event trace). -/
theorem C2_token_gating (self : TunnelClient) (h : self.token = none)
    (transport : Transport) (local_ip challenge disco1 disco2 email1 email2 : ByteStr)
    (decI : ByteStr → Except ByteStr ServerInfo)
    (decP : ByteStr → Except ByteStr Discovered) :
    unsubscribe self transport = (.error .NoToken, [])
    ∧ register self local_ip transport = (.error .NoToken, [])
    ∧ dnsconfig self challenge transport = (.error .NoToken, [])
    ∧ info self transport decI = (.error .NoToken, [])
    ∧ ping self transport decP = (.error .NoToken, [])
    ∧ adddiscovery self disco1 transport = (.error .NoToken, [])
    ∧ revokediscovery self disco2 transport = (.error .NoToken, [])
    ∧ setemail self email1 transport = (.error .NoToken, [])
    ∧ revokeemail self email2 transport = (.error .NoToken, [])
    ∧ (∀ domain name path st,
        lets_encrypt self domain name path st transport = (.error .NoToken, [])) := by
  refine ⟨?_, ?_, ?_, ?_, ?_, ?_, ?_, ?_, ?_, ?_⟩ <;>
    simp [unsubscribe, register, dnsconfig, info, ping, adddiscovery, revokediscovery,
      setemail, revokeemail, lets_encrypt, empty_api_endpoint, api_endpoint, h]

/-- Witness for C2 at a concrete token-less client. -/
theorem C2_token_gating_witness :
    noTokenClient.token = none
    ∧ unsubscribe noTokenClient okTransport = (.error .NoToken, [])
    ∧ dnsconfig noTokenClient (bytes "sig") okTransport = (.error .NoToken, [])
    ∧ lets_encrypt noTokenClient (bytes "example.com") (bytes "foo") (bytes "/dest")
        allOkStub okTransport = (.error .NoToken, []) := by
  have h := C2_token_gating noTokenClient rfl okTransport (bytes "ip") (bytes "sig")
    (bytes "d1") (bytes "d2") (bytes "e1") (bytes "e2") okDecodeInfo okDecodeDisco
  exact ⟨rfl, h.1, h.2.2.1, h.2.2.2.2.2.2.2.2.2 (bytes "example.com") (bytes "foo")
    (bytes "/dest") allOkStub⟩

/-- Claim C3 counterexample: a transport failure and a 200 response with an
undecodable body produce IDENTICAL `Other` errors, so a caller matching on
the error kind cannot tell a transport failure from a malformed response —
the three failure kinds are not distinguishable as the claim states. -/
theorem C3_counterexample :
    api_endpoint tokClient (bytes "info") true []
        (fun _ => .failure (bytes "boom")) failDecodeInfo
      = api_endpoint tokClient (bytes "info") true []
        (fun _ => .response 200 (bytes "junk")) failDecodeInfo
    ∧ (api_endpoint tokClient (bytes "info") true []
        (fun _ => .failure (bytes "boom")) failDecodeInfo).1
      = .error (.Other (bytes "boom")) := by
  exact ⟨rfl, rfl⟩

/-- Claim C3 (amended): a non-200 status yields `BadRequest`; a transport
failure yields `Other` carrying the transport's cause description; a 200
response whose body fails to decode yields `Other` carrying the decode
error.  `BadRequest` is distinguishable from the other two, but transport
failures and malformed responses share the single `Other` variant and are
not distinguishable by kind. -/
theorem C3_error_classification {ρ : Type} (self : TunnelClient) (base : ByteStr)
    (with_token : Bool) (params : List (ByteStr × Option ByteStr)) (transport : Transport)
    (decode : ByteStr → Except ByteStr ρ)
    (htok : with_token = false ∨ self.token.isNone = false) :
    (∀ e, transport (get_full_url self base params with_token) = .failure e →
        api_endpoint self base with_token params transport decode
          = (.error (.Other e), [get_full_url self base params with_token]))
    ∧ (∀ status body,
        transport (get_full_url self base params with_token) = .response status body →
        status ≠ 200 →
        api_endpoint self base with_token params transport decode
          = (.error .BadRequest, [get_full_url self base params with_token]))
    ∧ (∀ body e,
        transport (get_full_url self base params with_token) = .response 200 body →
        decode body = .error e →
        api_endpoint self base with_token params transport decode
          = (.error (.Other e), [get_full_url self base params with_token])) := by
  have hcond : (with_token && self.token.isNone) = false := by
    rcases htok with h | h <;> simp [h]
  refine ⟨?_, ?_, ?_⟩
  · intro e htr
    simp [api_endpoint, hcond, htr]
  · intro status body htr hne
    simp [api_endpoint, hcond, htr, hne]
  · intro body e htr hdec
    simp [api_endpoint, hcond, htr, hdec]

/-- Witness for the amended C3 at concrete stub transports. -/
theorem C3_error_classification_witness :
    api_endpoint tokClient (bytes "info") true []
        (fun _ => .failure (bytes "refused")) okDecodeInfo
      = (.error (.Other (bytes "refused")), [get_full_url tokClient (bytes "info") [] true])
    ∧ api_endpoint tokClient (bytes "info") true []
        (fun _ => .response 404 []) okDecodeInfo
      = (.error .BadRequest, [get_full_url tokClient (bytes "info") [] true])
    ∧ api_endpoint tokClient (bytes "info") true []
        (fun _ => .response 200 (bytes "junk")) failDecodeInfo
      = (.error (.Other (bytes "boom")), [get_full_url tokClient (bytes "info") [] true]) := by
  refine ⟨?_, ?_, ?_⟩
  · exact (C3_error_classification tokClient (bytes "info") true []
      (fun _ => .failure (bytes "refused")) okDecodeInfo (Or.inr rfl)).1 (bytes "refused") rfl
  · exact (C3_error_classification tokClient (bytes "info") true []
      (fun _ => .response 404 []) okDecodeInfo (Or.inr rfl)).2.1 404 [] rfl (by decide)
  · exact (C3_error_classification tokClient (bytes "info") true []
      (fun _ => .response 200 (bytes "junk")) failDecodeInfo (Or.inr rfl)).2.2
      (bytes "junk") (bytes "boom") rfl rfl

/-- Helper: the local domain is strictly longer than the remote one, so the
two derived domains are always distinct. -/
theorem local_domain_ne_remote_domain (name domain : ByteStr) :
    local_domain name domain ≠ remote_domain name domain := by
  intro h
  have hlen := congrArg List.length h
  have h1 : (bytes "local.").length = 6 := by decide
  have h2 : (bytes ".box.").length = 5 := by decide
  simp [local_domain, remote_domain, List.length_append, h1, h2] at hlen

/-- Helper: every event of one per-domain iteration either names that very
domain or is an outbound publication — in particular it is never a signing or
save event and never names another domain. -/
theorem processDomain_events_scoped (self : TunnelClient) (st : AcmeStub)
    (transport : Transport) (d : ByteStr) :
    ((processDomain self st transport d).2).all (scopedEvent d) = true := by
  unfold processDomain
  split
  · simp [scopedEvent]
  · split
    · simp [scopedEvent]
    · split
      · simp [scopedEvent]
      · split
        · simp [scopedEvent, List.all_append, List.all_map]
        · split <;> simp [scopedEvent, List.all_append, List.all_map]

/-- Helper: an event scoped to the remote domain is no step of the local
domain, no signing step, and no save. -/
theorem scoped_ne_local (name domain : ByteStr) (ev : Event)
    (hs : scopedEvent (remote_domain name domain) ev = true) :
    ev ≠ Event.authorize (local_domain name domain)
    ∧ ev ≠ Event.getChallenge (local_domain name domain)
    ∧ ev ≠ Event.getSignature (local_domain name domain)
    ∧ ev ≠ Event.validate (local_domain name domain)
    ∧ ev ≠ Event.signCert
    ∧ isSaveCert ev = false ∧ isSaveKey ev = false := by
  have hne := local_domain_ne_remote_domain name domain
  cases ev with
  | authorize d2 =>
    simp only [scopedEvent, beq_iff_eq] at hs
    subst hs
    simp [isSaveCert, isSaveKey]
    exact fun hh => hne hh.symm
  | getChallenge d2 =>
    simp only [scopedEvent, beq_iff_eq] at hs
    subst hs
    simp [isSaveCert, isSaveKey]
    exact fun hh => hne hh.symm
  | getSignature d2 =>
    simp only [scopedEvent, beq_iff_eq] at hs
    subst hs
    simp [isSaveCert, isSaveKey]
    exact fun hh => hne hh.symm
  | validate d2 =>
    simp only [scopedEvent, beq_iff_eq] at hs
    subst hs
    simp [isSaveCert, isSaveKey]
    exact fun hh => hne hh.symm
  | publish u => simp [isSaveCert, isSaveKey]
  | getDirectory => simp [scopedEvent] at hs
  | registerAccount => simp [scopedEvent] at hs
  | signCert => simp [scopedEvent] at hs
  | saveCert f => simp [scopedEvent] at hs
  | saveKey f => simp [scopedEvent] at hs

/-- Claim C1: if for the first (remote) domain any per-domain step fails —
authorization, challenge extraction, signature computation, publication via
`dnsconfig`, or validation — then the whole run returns that very error, no
step is attempted for the second (local) domain, the signing step is never
reached, and no artifact is written. -/
theorem C1_first_domain_failure_aborts (self : TunnelClient) (domain name path : ByteStr)
    (st : AcmeStub) (transport : Transport) (t : ByteStr)
    (htok : self.token = some t)
    (hdir : st.directoryResult = Except.ok ())
    (hreg : st.registerResult = Except.ok ())
    (e : TunnelClientError) (evs : List Event)
    (hfail : processDomain self st transport (remote_domain name domain) = (.error e, evs)) :
    lets_encrypt self domain name path st transport
      = (.error e, .getDirectory :: .registerAccount :: evs)
    ∧ Event.authorize (local_domain name domain)
        ∉ (lets_encrypt self domain name path st transport).2
    ∧ Event.getChallenge (local_domain name domain)
        ∉ (lets_encrypt self domain name path st transport).2
    ∧ Event.getSignature (local_domain name domain)
        ∉ (lets_encrypt self domain name path st transport).2
    ∧ Event.validate (local_domain name domain)
        ∉ (lets_encrypt self domain name path st transport).2
    ∧ Event.signCert ∉ (lets_encrypt self domain name path st transport).2
    ∧ certFileWritten st (lets_encrypt self domain name path st transport).2 = false
    ∧ keyFileWritten st (lets_encrypt self domain name path st transport).2 = false := by
  have heq : lets_encrypt self domain name path st transport
      = (.error e, .getDirectory :: .registerAccount :: evs) := by
    simp [lets_encrypt, htok, hdir, hreg, issuance_domains, runDomains, hfail]
  have htr : (lets_encrypt self domain name path st transport).2
      = .getDirectory :: .registerAccount :: evs := by rw [heq]
  have hscope : evs.all (scopedEvent (remote_domain name domain)) = true := by
    have h := processDomain_events_scoped self st transport (remote_domain name domain)
    rw [hfail] at h
    exact h
  have key : ∀ ev ∈ (Event.getDirectory :: Event.registerAccount :: evs),
      ev ≠ Event.authorize (local_domain name domain)
      ∧ ev ≠ Event.getChallenge (local_domain name domain)
      ∧ ev ≠ Event.getSignature (local_domain name domain)
      ∧ ev ≠ Event.validate (local_domain name domain)
      ∧ ev ≠ Event.signCert
      ∧ isSaveCert ev = false ∧ isSaveKey ev = false := by
    intro ev hev
    rcases List.mem_cons.1 hev with rfl | hev
    · simp [isSaveCert, isSaveKey]
    rcases List.mem_cons.1 hev with rfl | hev
    · simp [isSaveCert, isSaveKey]
    exact scoped_ne_local name domain ev (List.all_eq_true.mp hscope ev hev)
  have hanyC : (Event.getDirectory :: Event.registerAccount :: evs).any isSaveCert = false := by
    rw [List.any_eq_false]
    intro ev hev
    simp [(key ev hev).2.2.2.2.2.1]
  have hanyK : (Event.getDirectory :: Event.registerAccount :: evs).any isSaveKey = false := by
    rw [List.any_eq_false]
    intro ev hev
    simp [(key ev hev).2.2.2.2.2.2]
  refine ⟨heq, ?_, ?_, ?_, ?_, ?_, ?_, ?_⟩
  · rw [htr]; intro hmem; exact (key _ hmem).1 rfl
  · rw [htr]; intro hmem; exact (key _ hmem).2.1 rfl
  · rw [htr]; intro hmem; exact (key _ hmem).2.2.1 rfl
  · rw [htr]; intro hmem; exact (key _ hmem).2.2.2.1 rfl
  · rw [htr]; intro hmem; exact (key _ hmem).2.2.2.2.1 rfl
  · rw [htr]; simp [certFileWritten, hanyC]
  · rw [htr]; simp [keyFileWritten, hanyK]

/-- Witness for C1: a concrete run whose remote-domain authorization fails
returns that error after only the directory, registration and failed
authorization steps, and writes nothing. -/
theorem C1_first_domain_failure_aborts_witness :
    lets_encrypt tokClient (bytes "example.com") (bytes "foo") (bytes "/dest")
        authFailStub okTransport
      = (.error (.Acme (bytes "authfail")),
         [.getDirectory, .registerAccount,
          .authorize (remote_domain (bytes "foo") (bytes "example.com"))])
    ∧ certFileWritten authFailStub
        (lets_encrypt tokClient (bytes "example.com") (bytes "foo") (bytes "/dest")
          authFailStub okTransport).2 = false
    ∧ keyFileWritten authFailStub
        (lets_encrypt tokClient (bytes "example.com") (bytes "foo") (bytes "/dest")
          authFailStub okTransport).2 = false := by
  have h := C1_first_domain_failure_aborts tokClient (bytes "example.com") (bytes "foo")
    (bytes "/dest") authFailStub okTransport (bytes "tok") rfl rfl rfl
    (.Acme (bytes "authfail"))
    [.authorize (remote_domain (bytes "foo") (bytes "example.com"))] rfl
  exact ⟨h.1, h.2.2.2.2.2.2.1, h.2.2.2.2.2.2.2⟩

/-- Helper: a domain-scoped event is never a save. -/
theorem scoped_no_save (d : ByteStr) (ev : Event) (hs : scopedEvent d ev = true) :
    isSaveCert ev = false ∧ isSaveKey ev = false := by
  cases ev <;> simp [scopedEvent, isSaveCert, isSaveKey] at hs ⊢

/-- Helper: the per-domain validation loop performs no save at all. -/
theorem runDomains_no_saves (self : TunnelClient) (st : AcmeStub) (transport : Transport)
    (ds : List ByteStr) :
    ∀ ev ∈ (runDomains self st transport ds).2,
      isSaveCert ev = false ∧ isSaveKey ev = false := by
  induction ds with
  | nil => intro ev hev; simp [runDomains] at hev
  | cons d rest ih =>
    intro ev hev
    have hall := processDomain_events_scoped self st transport d
    rcases hpd : processDomain self st transport d with ⟨r, evsd⟩
    rw [hpd] at hall
    unfold runDomains at hev
    rw [hpd] at hev
    cases r with
    | error e =>
      exact scoped_no_save d ev (List.all_eq_true.mp hall ev hev)
    | ok u =>
      simp only [List.mem_append] at hev
      rcases hev with hev | hev
      · exact scoped_no_save d ev (List.all_eq_true.mp hall ev hev)
      · exact ih ev hev

/-- Claim C4 counterexample: when every step succeeds except the private-key
save, the run of `lets_encrypt` fails, yet `certificate.pem` has been written
while `privatekey.pem` has not — one artifact exists without the other after
a failing run. -/
theorem C4_counterexample :
    (lets_encrypt tokClient (bytes "example.com") (bytes "foo") (bytes "/dest")
        keySaveFailStub okTransport).1 = .error (.Acme (bytes "diskfull"))
    ∧ certFileWritten keySaveFailStub
        (lets_encrypt tokClient (bytes "example.com") (bytes "foo") (bytes "/dest")
          keySaveFailStub okTransport).2 = true
    ∧ keyFileWritten keySaveFailStub
        (lets_encrypt tokClient (bytes "example.com") (bytes "foo") (bytes "/dest")
          keySaveFailStub okTransport).2 = false := by
  refine ⟨rfl, rfl, rfl⟩

/-- Claim C4 (amended): artifacts go exactly to `<dest>/certificate.pem` and
`<dest>/privatekey.pem`; a certificate save happens only after the full
Domain Pair validation and the signing step succeeded; a key save happens
only after the certificate save succeeded; a fully successful run writes
both files; the key file never exists without the certificate file — but
(per the counterexample) a failing key save after a successful certificate
save leaves `certificate.pem` alone. -/
theorem C4_artifact_lifecycle (self : TunnelClient) (domain name path : ByteStr)
    (st : AcmeStub) (transport : Transport) :
    (∀ f, Event.saveCert f ∈ (lets_encrypt self domain name path st transport).2 →
        f = pjoin path (bytes "certificate.pem")
        ∧ (runDomains self st transport (issuance_domains name domain)).1 = .ok ()
        ∧ st.signResult = .ok ())
    ∧ (∀ f, Event.saveKey f ∈ (lets_encrypt self domain name path st transport).2 →
        f = pjoin path (bytes "privatekey.pem")
        ∧ st.saveCertResult = .ok ())
    ∧ ((lets_encrypt self domain name path st transport).1 = .ok () →
        certFileWritten st (lets_encrypt self domain name path st transport).2 = true
        ∧ keyFileWritten st (lets_encrypt self domain name path st transport).2 = true)
    ∧ (keyFileWritten st (lets_encrypt self domain name path st transport).2 = true →
        certFileWritten st (lets_encrypt self domain name path st transport).2 = true) := by
  have hNoSaves := runDomains_no_saves self st transport (issuance_domains name domain)
  by_cases htok : self.token.isNone
  · simp [lets_encrypt, htok, certFileWritten, keyFileWritten]
  · simp only [Bool.not_eq_true] at htok
    rcases hdir : st.directoryResult with ed | ud
    · simp [lets_encrypt, htok, hdir, certFileWritten, keyFileWritten, isSaveCert, isSaveKey]
    · rcases hreg : st.registerResult with er | ur
      · simp [lets_encrypt, htok, hdir, hreg, certFileWritten, keyFileWritten,
          isSaveCert, isSaveKey]
      · rcases hrd : runDomains self st transport (issuance_domains name domain) with ⟨rr, evs⟩
        have hNS : ∀ ev ∈ evs, isSaveCert ev = false ∧ isSaveKey ev = false := by
          intro ev hev
          exact hNoSaves ev (by rw [hrd]; exact hev)
        have hpreC : ∀ f, Event.saveCert f ∈ (Event.getDirectory :: Event.registerAccount :: evs)
            → False := by
          intro f hf
          rcases List.mem_cons.1 hf with h | hf
          · exact absurd h (by simp)
          rcases List.mem_cons.1 hf with h | hf
          · exact absurd h (by simp)
          · have := (hNS _ hf).1
            simp [isSaveCert] at this
        have hpreK : ∀ f, Event.saveKey f ∈ (Event.getDirectory :: Event.registerAccount :: evs)
            → False := by
          intro f hf
          rcases List.mem_cons.1 hf with h | hf
          · exact absurd h (by simp)
          rcases List.mem_cons.1 hf with h | hf
          · exact absurd h (by simp)
          · have := (hNS _ hf).2
            simp [isSaveKey] at this
        have hanyCevs : evs.any isSaveCert = false := by
          rw [List.any_eq_false]
          intro ev hev
          simp [(hNS ev hev).1]
        have hanyKevs : evs.any isSaveKey = false := by
          rw [List.any_eq_false]
          intro ev hev
          simp [(hNS ev hev).2]
        cases rr with
        | error e =>
          have heq : lets_encrypt self domain name path st transport
              = (.error e, .getDirectory :: .registerAccount :: evs) := by
            simp [lets_encrypt, htok, hdir, hreg, hrd]
          rw [heq]
          refine ⟨?_, ?_, ?_, ?_⟩
          · intro f hf; exact absurd hf (hpreC f)
          · intro f hf; exact absurd hf (hpreK f)
          · intro hok; simp at hok
          · intro hk
            simp [keyFileWritten, List.any_cons, hanyKevs, isSaveKey] at hk
        | ok u =>
          rcases u
          rcases hsign : st.signResult with es | us
          · have heq : lets_encrypt self domain name path st transport
                = (.error (.Acme es),
                   (Event.getDirectory :: Event.registerAccount :: evs) ++ [.signCert]) := by
              simp [lets_encrypt, htok, hdir, hreg, hrd, hsign]
            rw [heq]
            refine ⟨?_, ?_, ?_, ?_⟩
            · intro f hf
              rcases List.mem_append.1 hf with hf | hf
              · exact absurd hf (hpreC f)
              · simp at hf
            · intro f hf
              rcases List.mem_append.1 hf with hf | hf
              · exact absurd hf (hpreK f)
              · simp at hf
            · intro hok; simp at hok
            · intro hk
              simp [keyFileWritten, List.any_cons, List.any_append, hanyKevs,
                isSaveKey] at hk
          · rcases us
            rcases hsc : st.saveCertResult with ec | uc
            · have heq : lets_encrypt self domain name path st transport
                  = (.error (.Acme ec),
                     (Event.getDirectory :: Event.registerAccount :: evs)
                       ++ [.signCert, .saveCert (pjoin path (bytes "certificate.pem"))]) := by
                simp [lets_encrypt, htok, hdir, hreg, hrd, hsign, hsc]
              rw [heq]
              refine ⟨?_, ?_, ?_, ?_⟩
              · intro f hf
                rcases List.mem_append.1 hf with hf | hf
                · exact absurd hf (hpreC f)
                · simp at hf
                  exact ⟨hf, by simp [hrd], by simp [hsign]⟩
              · intro f hf
                rcases List.mem_append.1 hf with hf | hf
                · exact absurd hf (hpreK f)
                · simp at hf
              · intro hok; simp at hok
              · intro hk
                simp [keyFileWritten, List.any_cons, List.any_append, hanyKevs,
                  isSaveKey] at hk
            · rcases uc
              rcases hsk : st.saveKeyResult with ek | uk
              · have heq : lets_encrypt self domain name path st transport
                    = (.error (.Acme ek),
                       (Event.getDirectory :: Event.registerAccount :: evs)
                         ++ [.signCert, .saveCert (pjoin path (bytes "certificate.pem")),
                             .saveKey (pjoin path (bytes "privatekey.pem"))]) := by
                  simp [lets_encrypt, htok, hdir, hreg, hrd, hsign, hsc, hsk]
                rw [heq]
                refine ⟨?_, ?_, ?_, ?_⟩
                · intro f hf
                  rcases List.mem_append.1 hf with hf | hf
                  · exact absurd hf (hpreC f)
                  · simp at hf
                    exact ⟨hf, by simp [hrd], by simp [hsign]⟩
                · intro f hf
                  rcases List.mem_append.1 hf with hf | hf
                  · exact absurd hf (hpreK f)
                  · simp at hf
                    exact ⟨hf, by simp [hsc]⟩
                · intro hok; simp at hok
                · intro hk
                  simp [keyFileWritten, exceptOk, hsk] at hk
              · rcases uk
                have heq : lets_encrypt self domain name path st transport
                    = (.ok (),
                       (Event.getDirectory :: Event.registerAccount :: evs)
                         ++ [.signCert, .saveCert (pjoin path (bytes "certificate.pem")),
                             .saveKey (pjoin path (bytes "privatekey.pem"))]) := by
                  simp [lets_encrypt, htok, hdir, hreg, hrd, hsign, hsc, hsk]
                rw [heq]
                refine ⟨?_, ?_, ?_, ?_⟩
                · intro f hf
                  rcases List.mem_append.1 hf with hf | hf
                  · exact absurd hf (hpreC f)
                  · simp at hf
                    exact ⟨hf, by simp [hrd], by simp [hsign]⟩
                · intro f hf
                  rcases List.mem_append.1 hf with hf | hf
                  · exact absurd hf (hpreK f)
                  · simp at hf
                    exact ⟨hf, by simp [hsc]⟩
                · intro _
                  constructor
                  · simp [certFileWritten, List.any_cons, List.any_append, exceptOk,
                      hsc, isSaveCert]
                  · simp [keyFileWritten, List.any_cons, List.any_append, exceptOk,
                      hsk, isSaveKey]
                · intro _
                  simp [certFileWritten, List.any_cons, List.any_append, exceptOk,
                    hsc, isSaveCert]

/-- Witness for the amended C4: a fully successful concrete run writes both
artifacts. -/
theorem C4_artifact_lifecycle_witness :
    certFileWritten allOkStub
      (lets_encrypt tokClient (bytes "example.com") (bytes "foo") (bytes "/dest")
        allOkStub okTransport).2 = true
    ∧ keyFileWritten allOkStub
      (lets_encrypt tokClient (bytes "example.com") (bytes "foo") (bytes "/dest")
        allOkStub okTransport).2 = true :=
  (C4_artifact_lifecycle tokClient (bytes "example.com") (bytes "foo") (bytes "/dest")
    allOkStub okTransport).2.2.1 rfl

/-- Helper: a hex digit character is never a space. -/
theorem hexDigit_ne_32 (n : Nat) : hexDigit n ≠ 32 := by
  unfold hexDigit
  split <;> omega

/-- Helper: decoding inverts the escape of a single digit value. -/
theorem hexVal_hexDigit : ∀ n < 16, hexVal (hexDigit n) = some n := by decide

/-- Helper: decoding a percent-escape recovers the escaped byte. -/
theorem percentDecode_encodeByte (b : Nat) (hb : b < 256) (rest : ByteStr) :
    percentDecode (encodeByte b ++ rest) = b :: percentDecode rest := by
  have h1 : hexVal (hexDigit (b / 16)) = some (b / 16) :=
    hexVal_hexDigit _ (by omega)
  have h2 : hexVal (hexDigit (b % 16)) = some (b % 16) :=
    hexVal_hexDigit _ (by omega)
  simp [encodeByte, percentDecode, h1, h2]
  omega

/-- Helper: a non-percent byte passes through the decoder unchanged. -/
theorem percentDecode_cons_of_ne (b : Nat) (hb : b ≠ 37) (rest : ByteStr) :
    percentDecode (b :: rest) = b :: percentDecode rest := by
  cases rest with
  | nil => simp [percentDecode, hb]
  | cons h t =>
    cases t with
    | nil => simp [percentDecode, hb]
    | cons l t2 => simp [percentDecode, hb]

/-- Helper: the encoder round-trips on percent-free byte strings. -/
theorem percentDecode_url_param (s : ByteStr) (h256 : ∀ b ∈ s, b < 256)
    (hnp : (37 : Nat) ∉ s) :
    percentDecode (url_param s) = s := by
  induction s with
  | nil => rfl
  | cons b rest ih =>
    have hb : b < 256 := h256 b (List.mem_cons_self b rest)
    have hbn : b ≠ 37 := fun h => hnp (by rw [← h]; exact List.mem_cons_self b rest)
    have ih2 := ih (fun x hx => h256 x (List.mem_cons_of_mem b hx))
      (fun hx => hnp (List.mem_cons_of_mem b hx))
    by_cases hq : queryEncodeSet b = true
    · rw [show url_param (b :: rest) = encodeByte b ++ url_param rest by
        simp [url_param, hq]]
      rw [percentDecode_encodeByte b hb, ih2]
    · have hq2 : queryEncodeSet b = false := by
        cases hqq : queryEncodeSet b
        · rfl
        · exact absurd hqq hq
      rw [show url_param (b :: rest) = b :: url_param rest by simp [url_param, hq2]]
      rw [percentDecode_cons_of_ne b hbn, ih2]

/-- Helper: the encoder's output never contains an unescaped space. -/
theorem no_space_in_url_param (s : ByteStr) : (32 : Nat) ∉ url_param s := by
  intro hmem
  simp only [url_param, List.mem_flatMap] at hmem
  obtain ⟨b, hb, hx⟩ := hmem
  by_cases hq : queryEncodeSet b = true
  · rw [if_pos hq] at hx
    simp only [encodeByte, List.mem_cons, List.not_mem_nil, or_false] at hx
    rcases hx with h | h | h
    · exact absurd h (by decide)
    · exact hexDigit_ne_32 _ h.symm
    · exact hexDigit_ne_32 _ h.symm
  · rw [if_neg hq] at hx
    simp only [List.mem_singleton] at hx
    rw [← hx] at hq
    exact hq (by decide)

/-- Helper: the encoder is the identity on byte strings avoiding the encode
set entirely. -/
theorem url_param_id (s : ByteStr) (hall : ∀ b ∈ s, queryEncodeSet b = false) :
    url_param s = s := by
  induction s with
  | nil => rfl
  | cons b rest ih =>
    have hb := hall b (List.mem_cons_self b rest)
    rw [show url_param (b :: rest) = b :: url_param rest by simp [url_param, hb]]
    rw [ih (fun x hx => hall x (List.mem_cons_of_mem b hx))]

/-- Claim C7 counterexample: the encoder leaves `%` (and `&`, `=`, `?`)
unescaped, so a value containing `%` yields output with an unescaped
reserved character and fails to round-trip: `"%41"` encodes to itself and
decodes to `"A"`. -/
theorem C7_counterexample :
    url_param (bytes "%41") = bytes "%41"
    ∧ (37 : Nat) ∈ url_param (bytes "%41")
    ∧ percentDecode (url_param (bytes "%41")) = bytes "A"
    ∧ percentDecode (url_param (bytes "%41")) ≠ bytes "%41"
    ∧ url_param (bytes "a&b=c?d") = bytes "a&b=c?d"
    ∧ (38 : Nat) ∈ url_param (bytes "a&b=c?d")
    ∧ (61 : Nat) ∈ url_param (bytes "a&b=c?d")
    ∧ (63 : Nat) ∈ url_param (bytes "a&b=c?d") := by
  decide

/-- Claim C7 (amended): of the reserved query characters only the space is
percent-escaped — `&`, `=`, `?` and `%` are outside `QUERY_ENCODE_SET` and
pass through verbatim — the output never contains an unescaped space, and
decoding restores the original exactly for values containing no `%` byte. -/
theorem C7_encoding_amended (s : ByteStr) (h256 : ∀ b ∈ s, b < 256) :
    ((37 : Nat) ∉ s → percentDecode (url_param s) = s)
    ∧ (32 : Nat) ∉ url_param s
    ∧ ((∀ b ∈ s, queryEncodeSet b = false) → url_param s = s)
    ∧ queryEncodeSet 38 = false ∧ queryEncodeSet 61 = false ∧ queryEncodeSet 63 = false
    ∧ queryEncodeSet 37 = false ∧ queryEncodeSet 32 = true := by
  exact ⟨fun hnp => percentDecode_url_param s h256 hnp,
    no_space_in_url_param s,
    fun hall => url_param_id s hall,
    by decide, by decide, by decide, by decide, by decide⟩

/-- Witness for the amended C7 at a concrete value containing a space and an
ampersand. -/
theorem C7_encoding_amended_witness :
    percentDecode (url_param (bytes "a&b c")) = bytes "a&b c"
    ∧ (32 : Nat) ∉ url_param (bytes "a&b c") := by
  have h := C7_encoding_amended (bytes "a&b c") (by decide)
  exact ⟨h.1 (by decide), h.2.1⟩
